import Mathlib

/-!
Verification of the submit/poll/aggregate core of the aidge-api-service
repository (src/demotest.py and src/api_server.py) against its design
specification.

Modelling conventions (shallow embedding):
* Python JSON values are the inductive `Json`; a Python HTTP response text is a
  `Body`, which records the one property of the text the code ever inspects:
  whether `json.loads` succeeds, and if so which `Json` value it yields
  (`Body.jsonBody j`), or that parsing raises (`Body.rawBody s`).
* The HTTP transport is an oracle: each remote call is given a
  `TransportOutcome`, either the response text (`ok`) or a raised exception
  with its message (`exc`).  `invoke_api` then acts on that outcome exactly as
  the `try/except` in `AsyncApiClient.invoke_api` (src/demotest.py lines
  68-77) does.
* Python `dict.get(k, default)` is `Json.pyGet`; it raises (models
  `AttributeError`) when the receiver is not a dict, which the source's
  `try/except` blocks catch.  Python truthiness (`if not task_id`) is
  `Json.isTruthy`.
* Rationals stand in for Python floats.  Every delay value the poller can
  reach from the defaults (1, 10, factors 3/2 and 2) is exactly representable
  in binary floating point, so the ℚ arithmetic agrees with the float
  arithmetic of the source on all reachable values.
* asyncio concurrency is modelled by transition systems over the semaphore
  state (`SemReachable`, `TwoBatchReachable`) and by an event-step function
  over the server's module-level `task_results` store (`stepEvent`).
-/

/-- Json values, the parse results of Python `json.loads`.  Numbers are
modelled as integers; no claim depends on fractional JSON numbers. -/
inductive Json where
  | null
  | bool (b : Bool)
  | num (n : Int)
  | str (s : String)
  | arr (elems : List Json)
  | obj (fields : List (String × Json))

/-- Python truthiness of a JSON value: `None`, `False`, `0`, `""`, `[]` and
`{}` are falsy, everything else truthy.  Mirrors `if not task_id` at
src/demotest.py line 100 and 180. -/
def Json.isTruthy : Json → Bool
  | .null => false
  | .bool b => b
  | .num n => n != 0
  | .str s => !(s == "")
  | .arr xs => !xs.isEmpty
  | .obj fs => !fs.isEmpty

/-- Python `d.get(key, default)`.  On a dict it returns the value under
`key`, or `default` when the key is absent; on any non-dict value it raises
`AttributeError`, modelled as `Except.error ()`. -/
def Json.pyGet (j : Json) (key : String) (default : Json) : Except Unit Json :=
  match j with
  | .obj fields =>
      match fields.lookup key with
      | some v => .ok v
      | none => .ok default
  | _ => .error ()

/-- Python `s == "t"` where `s` came out of parsed JSON: true exactly when the
value is that string.  Mirrors `task_status == "finished"` at
src/demotest.py line 132 (Python equality between a non-string JSON value and
a string is `False`, never an error). -/
def Json.eqStr : Json → String → Bool
  | .str s, t => s == t
  | _, _ => false

/-- Python `pat in s` (substring containment) on the character list of a
string. -/
def charsContain (pat : List Char) : List Char → Bool
  | [] => pat.isPrefixOf ([] : List Char)
  | c :: rest => pat.isPrefixOf (c :: rest) || charsContain pat rest

/-- Python `pat in s` for strings, as used at src/demotest.py lines 120 and
128. -/
def strContains (s pat : String) : Bool :=
  charsContain pat.toList s.toList

/-- Python `s.startswith(pat)`, as used at src/demotest.py line 89. -/
def strStartsWith (s pat : String) : Bool :=
  pat.toList.isPrefixOf s.toList

/-- Python `s.endswith(pat)`.  The source never calls this; it is needed to
state the specification's "ends in a results-suffix" wording. -/
def strEndsWith (s pat : String) : Bool :=
  pat.toList.isSuffixOf s.toList

mutual

/-- Python `json.dumps` with its default separators.  String escaping is
elided (no claim feeds strings needing escapes through the encoder). -/
def jsonRender : Json → String
  | Json.null => "null"
  | Json.bool b => if b then "true" else "false"
  | Json.num n => toString n
  | Json.str s => "\"" ++ s ++ "\""
  | Json.arr xs => "[" ++ jsonRenderArr xs ++ "]"
  | Json.obj fs => "\x7b" ++ jsonRenderObj fs ++ "\x7d"

/-- Comma-separated rendering of a JSON array's elements. -/
def jsonRenderArr : List Json → String
  | [] => ""
  | [x] => jsonRender x
  | x :: y :: xs => jsonRender x ++ ", " ++ jsonRenderArr (y :: xs)

/-- Comma-separated rendering of a JSON object's fields. -/
def jsonRenderObj : List (String × Json) → String
  | [] => ""
  | [(k, v)] => "\"" ++ k ++ "\": " ++ jsonRender v
  | (k, v) :: f :: fs => "\"" ++ k ++ "\": " ++ jsonRender v ++ ", " ++ jsonRenderObj (f :: fs)

end

/-- Response text of one remote call, recorded together with its parse
status: `jsonBody j` is a text that `json.loads` turns into `j`; `rawBody s`
is a text on which `json.loads` raises. -/
inductive Body where
  | jsonBody (j : Json)
  | rawBody (s : String)

/-- Outcome of the underlying `aiohttp` request: the response text, or a
raised exception with its message. -/
inductive TransportOutcome where
  | ok (body : Body)
  | exc (msg : String)

/-- Return value of `AsyncApiClient.invoke_api` (src/demotest.py lines
68-77): on success the response text is returned; on any exception the
function returns `json.dumps({"code": -1, "message": f"API调用异常: {e}"})`,
which parses back to the corresponding object.  The function is total: it
never propagates the exception. -/
def invoke_api (t : TransportOutcome) : Body :=
  match t with
  | .ok b => b
  | .exc msg =>
      .jsonBody (.obj [("code", .num (-1)), ("message", .str ("API调用异常: " ++ msg))])

/-- Semaphore-relevant action trace of one `invoke_api` call.  The body of
`invoke_api` is `async with self.semaphore: try ... except ...`
(src/demotest.py lines 52-77): the semaphore is acquired before the remote
call and released after it on both the success and the exception path. -/
inductive ApiAction where
  | acquire
  | remoteCall (success : Bool)
  | release
deriving DecidableEq, Repr

/-- Action sequence performed by `invoke_api` for a given transport outcome:
acquire, one remote call, release — on every path. -/
def invoke_api_actions (t : TransportOutcome) : List ApiAction :=
  match t with
  | .ok _ => [.acquire, .remoteCall true, .release]
  | .exc _ => [.acquire, .remoteCall false, .release]

/-- Request body built by `AsyncApiClient.submit_task` (src/demotest.py lines
89-92): parameters are JSON-encoded and wrapped under `paramJson` when the
endpoint name starts with the image-translation prefix, under `requestParams`
otherwise. -/
def submit_request_body (api_name : String) (request_params : Json) : Json :=
  if strStartsWith api_name "/ai/image/translation" then
    Json.obj [("paramJson", Json.str (jsonRender request_params))]
  else
    Json.obj [("requestParams", Json.str (jsonRender request_params))]

/-- Primary task-id lookup chain
`submit_result_json.get("data", {}).get("result", {}).get("taskId")`
(src/demotest.py line 99). -/
def primaryTaskId (j : Json) : Except Unit Json := do
  let data ← j.pyGet "data" (Json.obj [])
  let res ← data.pyGet "result" (Json.obj [])
  res.pyGet "taskId" Json.null

/-- Fallback task-id lookup chain
`submit_result_json.get("data", {}).get("taskId")` (src/demotest.py
line 101). -/
def fallbackTaskId (j : Json) : Except Unit Json := do
  let data ← j.pyGet "data" (Json.obj [])
  data.pyGet "taskId" Json.null

/-- Task id extracted by `AsyncApiClient.submit_task` from the submit
response (src/demotest.py lines 97-105): parse the body, read the primary
chain, fall back to the second chain when the primary value is falsy, and
return `None` when parsing or either active lookup raises. -/
def extract_task_id (b : Body) : Json :=
  match b with
  | .rawBody _ => Json.null
  | .jsonBody j =>
      match primaryTaskId j with
      | .error _ => Json.null
      | .ok tid =>
          if tid.isTruthy then tid
          else
            match fallbackTaskId j with
            | .error _ => Json.null
            | .ok tid2 => tid2

/-- Return value of `AsyncApiClient.submit_task` given the transport outcome
of its one remote call. -/
def submit_task (t : TransportOutcome) : Json :=
  extract_task_id (invoke_api t)

/-- HTTP method of a remote call. -/
inductive HttpMethod where
  | get
  | post
deriving DecidableEq, Repr

/-- Payload shape handed to `invoke_api` by the poller: either the
pre-encoded JSON string `json.dumps({"task_id": task_id})`, or the plain dict
`{"taskId": task_id}`. -/
inductive QueryPayload where
  | jsonString (s : String)
  | dict (fields : List (String × String))
deriving DecidableEq, Repr

/-- Wire-level shape of one status query: its method, whether `aiohttp`
receives the payload as URL query parameters (`params=`, the GET branch of
`invoke_api`, line 70) or as the request body (`data=`, the POST branch,
line 73), and the payload itself. -/
structure QueryCall where
  method : HttpMethod
  sentAsQueryParams : Bool
  payload : QueryPayload
deriving DecidableEq, Repr

/-- Status-query request built by `AsyncApiClient.poll_task_status`
(src/demotest.py lines 120-128) combined with the dispatch in `invoke_api`
(lines 69-74): the payload is the JSON string `{"task_id": ...}` when the
endpoint name contains `/ai/virtual/` and the dict `{"taskId": ...}`
otherwise; the call is a GET exactly when the endpoint name contains
`/results`, and a GET sends the payload as query parameters while a POST
sends it as the request body. -/
def build_query_call (query_api_name task_id : String) : QueryCall :=
  let is_get := strContains query_api_name "/results"
  { method := if is_get then .get else .post
    sentAsQueryParams := is_get
    payload :=
      if strContains query_api_name "/ai/virtual/" then
        .jsonString (jsonRender (Json.obj [("task_id", Json.str task_id)]))
      else
        .dict [("taskId", task_id)] }

/-- Status field `query_result_json.get("data", {}).get("taskStatus")` read
by the poller (src/demotest.py line 130). -/
def taskStatusOf (j : Json) : Except Unit Json := do
  let data ← j.pyGet "data" (Json.obj [])
  data.pyGet "taskStatus" Json.null

/-- Classification of one poll iteration (src/demotest.py lines 127-141):
`terminal` when the body parses and `data.taskStatus` is `"finished"` or
`"failed"` (line 132); `pending` when it parses to a non-terminal status, in
which case the loop sleeps and multiplies the delay by 1.5 (line 137);
`parseError` when `json.loads` or a `.get` raises, landing in the `except`
arm that multiplies the delay by 2 (line 141). -/
inductive PollBranch where
  | terminal
  | pending
  | parseError
deriving DecidableEq, Repr

/-- Branch taken by the poll loop on a given response body. -/
def pollBranch (b : Body) : PollBranch :=
  match b with
  | .rawBody _ => .parseError
  | .jsonBody j =>
      match taskStatusOf j with
      | .error _ => .parseError
      | .ok ts =>
          if ts.eqStr "finished" || ts.eqStr "failed" then .terminal else .pending

/-- Synthetic result `json.dumps({"code": -1, "message": "任务轮询超时"})`
returned when the retry budget is exhausted (src/demotest.py line 143). -/
def timeoutBody : Body :=
  .jsonBody (.obj [("code", .num (-1)), ("message", .str "任务轮询超时")])

/-- Observable run of the poll loop: the value returned, the sequence of
backoff sleeps performed, and the number of status queries issued. -/
structure PollRun where
  result : Body
  sleeps : List ℚ
  queries : Nat

/-- Body of the `for _ in range(max_retries)` loop of
`AsyncApiClient.poll_task_status` (src/demotest.py lines 126-143).  `fuel` is
the remaining iteration budget, `i` the index of the next status query in the
transport oracle, `delay` the current backoff delay.  Terminal responses are
returned immediately; a pending response sleeps `delay` and continues with
`min(delay * 1.5, max_delay)`; a parse failure sleeps `delay` and continues
with `min(delay * 2, max_delay)`; an exhausted budget returns
`timeoutBody`. -/
def poll_loop (responses : Nat → TransportOutcome) (max_delay : ℚ) :
    Nat → Nat → ℚ → PollRun
  | 0, _, _ => ⟨timeoutBody, [], 0⟩
  | fuel + 1, i, delay =>
      let body := invoke_api (responses i)
      match pollBranch body with
      | .terminal => ⟨body, [], 1⟩
      | .pending =>
          let rest := poll_loop responses max_delay fuel (i + 1) (min (delay * (3 / 2)) max_delay)
          ⟨rest.result, delay :: rest.sleeps, rest.queries + 1⟩
      | .parseError =>
          let rest := poll_loop responses max_delay fuel (i + 1) (min (delay * 2) max_delay)
          ⟨rest.result, delay :: rest.sleeps, rest.queries + 1⟩

/-- Run of `AsyncApiClient.poll_task_status` (src/demotest.py lines 107-143)
for a given transport oracle.  The source defaults are `max_retries = 60`,
`initial_delay = 1`, `max_delay = 10`. -/
def poll_task_status (responses : Nat → TransportOutcome) (max_retries : Nat)
    (initial_delay max_delay : ℚ) : PollRun :=
  poll_loop responses max_delay max_retries 0 initial_delay

/-- Dictionary returned by `process_single_request` (src/demotest.py lines
179-184), as a tagged value: `failed m` stands for
`{"status": "failed", "message": m}` and `success tid r` for
`{"status": "success", "task_id": tid, "result": r}`. -/
inductive SingleResult where
  | failed (message : String)
  | success (task_id : Json) (result : Body)

/-- Run of `process_single_request` (src/demotest.py lines 167-184): submit
once; if the returned task id is falsy, return the failure dict without any
status query; otherwise poll with the default arguments and wrap the raw poll
result.  The second component counts the status queries issued. -/
def process_single_request (submitOutcome : TransportOutcome)
    (queryOutcomes : Nat → TransportOutcome) : SingleResult × Nat :=
  let task_id := submit_task submitOutcome
  if !task_id.isTruthy then
    (.failed "提交任务失败", 0)
  else
    let run := poll_task_status queryOutcomes 60 1 10
    (.success task_id run.result, run.queries)

/-- Per-item entry appended by the aggregation loop of
`process_batch_and_save` (src/api_server.py lines 161-170):
`{"index": i, "result": r}` when `await task` returned `r`, and
`{"index": i, "error": e}` when it raised `e`; the `Except` carries
the exception message in the latter case. -/
structure BatchItem where
  index : Nat
  outcome : Except String SingleResult

/-- Entry of the module-level `task_results` store of src/api_server.py:
`{"status": ..., "results": ...}`. -/
structure BatchRecord where
  status : String
  results : List BatchItem

/-- Aggregation loop of `process_batch_and_save` (src/api_server.py lines
149-170): sub-tasks are created for indices `0, 1, ...` in submission order
and then awaited in that same order, so entry `i` of `results` is
`{"index": i, ...}` regardless of the order in which the sub-tasks actually
finish. -/
def assembleResults (outcomes : List (Except String SingleResult)) : List BatchItem :=
  outcomes.enum.map (fun p => ⟨p.1, p.2⟩)

/-- Record written by `process_batch_and_save` when it starts
(src/api_server.py line 145): `{"status": "processing", "results": []}`. -/
def processingRecord : BatchRecord :=
  ⟨"processing", []⟩

/-- Record written by `process_batch_and_save` when every sub-task has been
awaited (src/api_server.py line 173):
`{"status": "completed", "results": results}`. -/
def completedRecord (outcomes : List (Except String SingleResult)) : BatchRecord :=
  ⟨"completed", assembleResults outcomes⟩

/-- Python dict assignment `store[key] = v` on an association list: replace
the binding when the key is present, append it otherwise. -/
def dictSet (store : List (String × BatchRecord)) (key : String) (v : BatchRecord) :
    List (String × BatchRecord) :=
  match store with
  | [] => [(key, v)]
  | (k, w) :: rest => if k == key then (k, v) :: rest else (k, w) :: dictSet rest key v

/-- Effect of one full run of `process_batch_and_save` (src/api_server.py
lines 143-173) on the `task_results` store: first the `processing` record is
written, then — after all sub-tasks have produced their outcomes — the
`completed` record overwrites it under the same key. -/
def process_batch_and_save (batch_id : String)
    (outcomes : List (Except String SingleResult))
    (store : List (String × BatchRecord)) : List (String × BatchRecord) :=
  dictSet (dictSet store batch_id processingRecord) batch_id (completedRecord outcomes)

/-- Batch identifier allocated by `process_batch` (src/api_server.py line
115): `f"batch_{len(task_results) + 1}"`, computed from the current size of
the shared store. -/
def allocBatchId (store : List (String × BatchRecord)) : String :=
  "batch_" ++ Nat.repr (store.length + 1)

/-- Process-level state of the server: the `task_results` store and the list
of batch identifiers handed out so far, in submission order. -/
structure ServerState where
  store : List (String × BatchRecord)
  allocated : List String

/-- Scheduler-visible events of the batch endpoint.  `submit` is the body of
`process_batch` (src/api_server.py lines 113-130): it allocates an id from
the current store size and schedules a background task, without touching the
store.  `startBackground k` is the first statement of the `k`-th batch's
`process_batch_and_save` run (line 145), registering the `processing`
record.  `finishBackground k outcomes` is its final statement (line 173),
writing the `completed` record.  FastAPI runs background tasks only after
the response is sent, so distinct submits may interleave with these steps
arbitrarily. -/
inductive BatchEvent where
  | submit
  | startBackground (k : Nat)
  | finishBackground (k : Nat) (outcomes : List (Except String SingleResult))

/-- One event step of the server model. -/
def stepEvent (s : ServerState) : BatchEvent → ServerState
  | .submit => ⟨s.store, s.allocated ++ [allocBatchId s.store]⟩
  | .startBackground k =>
      match s.allocated.get? k with
      | some bid => ⟨dictSet s.store bid processingRecord, s.allocated⟩
      | none => s
  | .finishBackground k outcomes =>
      match s.allocated.get? k with
      | some bid => ⟨dictSet s.store bid (completedRecord outcomes), s.allocated⟩
      | none => s

/-- Run of the server model over a list of events, from the given state. -/
def runEvents (s : ServerState) (events : List BatchEvent) : ServerState :=
  events.foldl stepEvent s

/-- Initial server state: `task_results = {}` (src/api_server.py line 34) and
no identifiers allocated. -/
def initialServerState : ServerState :=
  ⟨[], []⟩

/-- Sequential submission discipline: each batch's background task starts
(and hence registers its record) before the next batch is submitted. -/
def seqTrace : Nat → List BatchEvent
  | 0 => []
  | n + 1 => seqTrace n ++ [.submit, .startBackground n]

/-- States of one client's `asyncio.Semaphore(max_concurrent_requests)`
(src/demotest.py line 27), counting the calls currently holding a unit.
`acquire` is enabled only while fewer than `c` calls hold a unit — otherwise
the caller suspends — and every `invoke_api` call releases the unit it
acquired on every exit path (see `invoke_api_actions`), so `release` happens
only with a positive holder count. -/
inductive SemReachable (c : Nat) : Nat → Prop where
  | init : SemReachable c 0
  | acquire {f : Nat} : SemReachable c f → f < c → SemReachable c (f + 1)
  | release {f : Nat} : SemReachable c f → 0 < f → SemReachable c (f - 1)

/-- Joint states of the semaphores of two concurrently running batches.
Each call to `process_batch_and_save` constructs its own
`AsyncApiClient(max_concurrent_requests=max_concurrent)` (src/api_server.py
line 147), and each client constructs its own `asyncio.Semaphore`
(src/demotest.py line 27), so the two counters evolve independently: each
batch's acquires are gated only by its own capacity. -/
inductive TwoBatchReachable (c₁ c₂ : Nat) : Nat → Nat → Prop where
  | init : TwoBatchReachable c₁ c₂ 0 0
  | acquire₁ {f₁ f₂ : Nat} : TwoBatchReachable c₁ c₂ f₁ f₂ → f₁ < c₁ →
      TwoBatchReachable c₁ c₂ (f₁ + 1) f₂
  | release₁ {f₁ f₂ : Nat} : TwoBatchReachable c₁ c₂ f₁ f₂ → 0 < f₁ →
      TwoBatchReachable c₁ c₂ (f₁ - 1) f₂
  | acquire₂ {f₁ f₂ : Nat} : TwoBatchReachable c₁ c₂ f₁ f₂ → f₂ < c₂ →
      TwoBatchReachable c₁ c₂ f₁ (f₂ + 1)
  | release₂ {f₁ f₂ : Nat} : TwoBatchReachable c₁ c₂ f₁ f₂ → 0 < f₂ →
      TwoBatchReachable c₁ c₂ f₁ (f₂ - 1)

/-- Numeric value of a decimal digit character. -/
def digitVal (c : Char) : Nat :=
  c.toNat - '0'.toNat

/-- Decimal decoding of a digit list continuing from accumulator `a`. -/
def decodeFrom (a : Nat) (l : List Char) : Nat :=
  l.foldl (fun acc c => 10 * acc + digitVal c) a

/-- Decimal digit characters of `n`, most significant first; `0` is `['0']`.
Reference rendering used to reason about `Nat.repr`. -/
def digitsOf (n : Nat) : List Char :=
  if n < 10 then [Nat.digitChar n]
  else digitsOf (n / 10) ++ [Nat.digitChar (n % 10)]
termination_by n
decreasing_by exact Nat.div_lt_self (by omega) (by omega)

theorem digitVal_digitChar {n : Nat} (h : n < 10) : digitVal (Nat.digitChar n) = n := by
  interval_cases n <;> rfl

theorem decodeFrom_append (a : Nat) (l₁ l₂ : List Char) :
    decodeFrom a (l₁ ++ l₂) = decodeFrom (decodeFrom a l₁) l₂ :=
  List.foldl_append _ _ _ _

theorem decode_digitsOf (n : Nat) : decodeFrom 0 (digitsOf n) = n := by
  induction n using Nat.strong_induction_on with
  | _ n ih =>
    by_cases h : n < 10
    · rw [digitsOf, if_pos h]
      simp [decodeFrom, digitVal_digitChar h]
    · rw [digitsOf, if_neg h, decodeFrom_append,
        ih (n / 10) (Nat.div_lt_self (by omega) (by omega))]
      have hm : n % 10 < 10 := Nat.mod_lt n (by omega)
      simp [decodeFrom, digitVal_digitChar hm]
      omega

theorem digitsOf_injective {m n : Nat} (h : digitsOf m = digitsOf n) : m = n := by
  have hm := decode_digitsOf m
  rw [h, decode_digitsOf] at hm
  omega

theorem toDigitsCore_succ (f n : Nat) (ds : List Char) :
    Nat.toDigitsCore 10 (f + 1) n ds =
      if n / 10 = 0 then Nat.digitChar (n % 10) :: ds
      else Nat.toDigitsCore 10 f (n / 10) (Nat.digitChar (n % 10) :: ds) := rfl

theorem toDigitsCore_eq_digitsOf :
    ∀ (f n : Nat) (ds : List Char), n < 10 ^ (f + 1) →
      Nat.toDigitsCore 10 (f + 1) n ds = digitsOf n ++ ds := by
  intro f
  induction f with
  | zero =>
      intro n ds h
      have h10 : n < 10 := by simpa using h
      have hdiv : n / 10 = 0 := Nat.div_eq_of_lt h10
      rw [toDigitsCore_succ, if_pos hdiv, digitsOf, if_pos h10, Nat.mod_eq_of_lt h10]
      simp
  | succ f ih =>
      intro n ds h
      by_cases h0 : n / 10 = 0
      · have h10 : n < 10 := by omega
        rw [toDigitsCore_succ, if_pos h0, digitsOf, if_pos h10, Nat.mod_eq_of_lt h10]
        simp
      · have hdiv : n / 10 < 10 ^ (f + 1) := by
          rw [Nat.div_lt_iff_lt_mul (by omega : 0 < 10)]
          calc n < 10 ^ (f + 1 + 1) := h
            _ = 10 ^ (f + 1) * 10 := by ring
        have h10 : ¬ n < 10 := by omega
        rw [toDigitsCore_succ, if_neg h0, ih (n / 10) (Nat.digitChar (n % 10) :: ds) hdiv]
        conv_rhs => rw [digitsOf]
        rw [if_neg h10]
        simp

theorem natRepr_injective {m n : Nat} (h : Nat.repr m = Nat.repr n) : m = n := by
  have hd : (Nat.toDigits 10 m) = (Nat.toDigits 10 n) := by
    have := congrArg String.data h
    simpa [Nat.repr, List.asString] using this
  have hb : ∀ k : Nat, Nat.toDigits 10 k = digitsOf k := by
    intro k
    have hk : k < 10 ^ (k + 1) := by
      have h1 : k < 10 ^ k := Nat.lt_pow_self (by omega) k
      have h2 : 10 ^ k ≤ 10 ^ (k + 1) := Nat.pow_le_pow_right (by omega) (by omega)
      omega
    have := toDigitsCore_eq_digitsOf k k [] hk
    simpa [Nat.toDigits] using this
  rw [hb, hb] at hd
  exact digitsOf_injective hd

theorem string_append_left_cancel {p a b : String} (h : p ++ a = p ++ b) : a = b := by
  have hd := congrArg String.data h
  simp only [String.data_append] at hd
  exact congrArg String.mk (List.append_cancel_left hd)

/-- Identifier the server hands to the `k`-th batch (0-based) when batches
are submitted under the sequential discipline: the store then holds `k`
records, so `allocBatchId` yields `batch_{k+1}`. -/
def idOf (k : Nat) : String :=
  "batch_" ++ Nat.repr (k + 1)

theorem idOf_injective {k l : Nat} (h : idOf k = idOf l) : k = l := by
  have := natRepr_injective (string_append_left_cancel h)
  omega

theorem dictSet_lookup_self (store : List (String × BatchRecord)) (k : String)
    (v : BatchRecord) : (dictSet store k v).lookup k = some v := by
  induction store with
  | nil => simp [dictSet]
  | cons hd tl ih =>
      obtain ⟨k', w⟩ := hd
      by_cases hk : k' = k
      · subst hk; simp [dictSet, List.lookup]
      · have hk1 : (k' == k) = false := beq_eq_false_iff_ne.mpr hk
        have hk2 : (k == k') = false := beq_eq_false_iff_ne.mpr (fun h' => hk h'.symm)
        simp [dictSet, List.lookup, hk1, hk2, ih]

theorem dictSet_fresh (store : List (String × BatchRecord)) (k : String)
    (v : BatchRecord) (h : store.lookup k = none) :
    dictSet store k v = store ++ [(k, v)] := by
  induction store with
  | nil => simp [dictSet]
  | cons hd tl ih =>
      obtain ⟨k', w⟩ := hd
      simp only [List.lookup] at h
      cases hbeq : k == k' with
      | true => rw [hbeq] at h; simp at h
      | false =>
          rw [hbeq] at h
          have hne : ¬ k = k' := by simpa using hbeq
          have hk1 : (k' == k) = false := beq_eq_false_iff_ne.mpr (fun h' => hne h'.symm)
          have hstep : dictSet ((k', w) :: tl) k v = (k', w) :: dictSet tl k v := by
            simp [dictSet, hk1]
          rw [hstep, ih h]
          simp

/-- Backoff multiplier of each non-terminal poll branch: 1.5 for a parsed
but pending status (src/demotest.py line 137), 2 for a parse failure
(line 141).  The terminal branch performs no backoff; its value is unused. -/
def stepFactor : PollBranch → ℚ
  | .terminal => 1
  | .pending => 3 / 2
  | .parseError => 2

theorem min_mul_min (a M x : ℚ) (hM : 0 ≤ M) (hx : 1 ≤ x) :
    min (min a M * x) M = min (a * x) M := by
  have hx0 : (0 : ℚ) ≤ x := by linarith
  rw [min_mul_of_nonneg _ _ hx0, min_assoc,
    min_eq_right (le_mul_of_one_le_right hM hx)]

theorem poll_loop_sleeps (responses : Nat → TransportOutcome) (M : ℚ) (br : PollBranch)
    (hbr : br ≠ PollBranch.terminal) :
    ∀ (k fuel i : Nat) (d : ℚ), 0 ≤ d → d ≤ M → k ≤ fuel →
      (∀ j, j < k → pollBranch (invoke_api (responses (i + j))) = br) →
      (poll_loop responses M fuel i d).sleeps.take k
        = (List.range k).map (fun j => min (d * stepFactor br ^ j) M) := by
  intro k
  induction k with
  | zero => intro fuel i d _ _ _ _; simp
  | succ k ih =>
      intro fuel i d hd0 hd hk hbrs
      obtain ⟨f, rfl⟩ : ∃ f, fuel = f + 1 := ⟨fuel - 1, by omega⟩
      have h0 : pollBranch (invoke_api (responses i)) = br := by
        have := hbrs 0 (by omega)
        simpa using this
      have hshift : ∀ j, j < k → pollBranch (invoke_api (responses (i + 1 + j))) = br := by
        intro j hj
        have heq : i + 1 + j = i + (j + 1) := by omega
        rw [heq]
        exact hbrs (j + 1) (by omega)
      have hM0 : 0 ≤ M := le_trans hd0 hd
      have hmind : min d M = d := min_eq_left hd
      cases br with
      | terminal => exact absurd rfl hbr
      | pending =>
          have hrec := ih f (i + 1) (min (d * (3 / 2)) M)
            (le_min (by linarith) hM0) (min_le_right _ _) (by omega) hshift
          simp only [poll_loop, h0]
          rw [List.take_succ_cons, hrec, List.range_succ_eq_map, List.map_cons,
            List.map_map]
          have hhead : min (d * stepFactor PollBranch.pending ^ 0) M = d := by
            simp [stepFactor, hmind]
          rw [hhead]
          congr 1
          apply List.map_congr_left
          intro j _
          have hx : (1 : ℚ) ≤ (3 / 2 : ℚ) ^ j := one_le_pow₀ (by norm_num)
          have := min_mul_min (d * (3 / 2)) M ((3 / 2 : ℚ) ^ j) hM0 hx
          simp only [Function.comp, stepFactor]
          rw [this]
          congr 1
          rw [pow_succ]
          ring
      | parseError =>
          have hrec := ih f (i + 1) (min (d * 2) M)
            (le_min (by linarith) hM0) (min_le_right _ _) (by omega) hshift
          simp only [poll_loop, h0]
          rw [List.take_succ_cons, hrec, List.range_succ_eq_map, List.map_cons,
            List.map_map]
          have hhead : min (d * stepFactor PollBranch.parseError ^ 0) M = d := by
            simp [stepFactor, hmind]
          rw [hhead]
          congr 1
          apply List.map_congr_left
          intro j _
          have hx : (1 : ℚ) ≤ (2 : ℚ) ^ j := one_le_pow₀ (by norm_num)
          have := min_mul_min (d * 2) M ((2 : ℚ) ^ j) hM0 hx
          simp only [Function.comp, stepFactor]
          rw [this]
          congr 1
          rw [pow_succ]
          ring

theorem poll_loop_terminal (responses : Nat → TransportOutcome) (M : ℚ) :
    ∀ (t fuel i : Nat) (d : ℚ), t < fuel →
      (∀ j, j < t → pollBranch (invoke_api (responses (i + j))) ≠ PollBranch.terminal) →
      pollBranch (invoke_api (responses (i + t))) = PollBranch.terminal →
      (poll_loop responses M fuel i d).result = invoke_api (responses (i + t)) ∧
      (poll_loop responses M fuel i d).queries = t + 1 := by
  intro t
  induction t with
  | zero =>
      intro fuel i d hf _ hterm
      obtain ⟨f, rfl⟩ : ∃ f, fuel = f + 1 := ⟨fuel - 1, by omega⟩
      simp only [Nat.add_zero] at hterm
      simp [poll_loop, hterm]
  | succ t ih =>
      intro fuel i d hf hpre hterm
      obtain ⟨f, rfl⟩ : ∃ f, fuel = f + 1 := ⟨fuel - 1, by omega⟩
      have h0 : pollBranch (invoke_api (responses i)) ≠ PollBranch.terminal := by
        have := hpre 0 (by omega)
        simpa using this
      have hshift : ∀ j, j < t → pollBranch (invoke_api (responses (i + 1 + j))) ≠
          PollBranch.terminal := by
        intro j hj
        have heq : i + 1 + j = i + (j + 1) := by omega
        rw [heq]
        exact hpre (j + 1) (by omega)
      have hterm' : pollBranch (invoke_api (responses (i + 1 + t))) = PollBranch.terminal := by
        have heq : i + 1 + t = i + (t + 1) := by omega
        rw [heq]
        exact hterm
      have heq2 : i + 1 + t = i + (t + 1) := by omega
      cases hbr : pollBranch (invoke_api (responses i)) with
      | terminal => exact absurd hbr h0
      | pending =>
          have hrec := ih f (i + 1) (min (d * (3 / 2)) M) (by omega) hshift hterm'
          simp only [poll_loop, hbr]
          rw [heq2] at hrec
          exact ⟨hrec.1, by rw [hrec.2]⟩
      | parseError =>
          have hrec := ih f (i + 1) (min (d * 2) M) (by omega) hshift hterm'
          simp only [poll_loop, hbr]
          rw [heq2] at hrec
          exact ⟨hrec.1, by rw [hrec.2]⟩

theorem poll_loop_timeout (responses : Nat → TransportOutcome) (M : ℚ) :
    ∀ (fuel i : Nat) (d : ℚ),
      (∀ j, j < fuel → pollBranch (invoke_api (responses (i + j))) ≠ PollBranch.terminal) →
      (poll_loop responses M fuel i d).result = timeoutBody ∧
      (poll_loop responses M fuel i d).queries = fuel := by
  intro fuel
  induction fuel with
  | zero => intro i d _; simp [poll_loop]
  | succ f ih =>
      intro i d hpre
      have h0 : pollBranch (invoke_api (responses i)) ≠ PollBranch.terminal := by
        have := hpre 0 (by omega)
        simpa using this
      have hshift : ∀ j, j < f → pollBranch (invoke_api (responses (i + 1 + j))) ≠
          PollBranch.terminal := by
        intro j hj
        have heq : i + 1 + j = i + (j + 1) := by omega
        rw [heq]
        exact hpre (j + 1) (by omega)
      cases hbr : pollBranch (invoke_api (responses i)) with
      | terminal => exact absurd hbr h0
      | pending =>
          have hrec := ih (i + 1) (min (d * (3 / 2)) M) hshift
          simp only [poll_loop, hbr]
          exact ⟨hrec.1, by rw [hrec.2]⟩
      | parseError =>
          have hrec := ih (i + 1) (min (d * 2) M) hshift
          simp only [poll_loop, hbr]
          exact ⟨hrec.1, by rw [hrec.2]⟩

theorem lookup_map_idOf_none (key : String) :
    ∀ (l : List Nat), (∀ k ∈ l, idOf k ≠ key) →
      (l.map (fun k => (idOf k, processingRecord))).lookup key = none := by
  intro l
  induction l with
  | nil => intro _; rfl
  | cons a t ih =>
      intro h
      have ha : (key == idOf a) = false :=
        beq_eq_false_iff_ne.mpr (fun h' => h a (by simp) h'.symm)
      simp only [List.map_cons, List.lookup, ha]
      exact ih (fun k hk => h k (by simp [hk]))

theorem lookup_map_idOf_mem (key : String) :
    ∀ (l : List Nat), (∃ k ∈ l, key = idOf k) →
      (l.map (fun k => (idOf k, processingRecord))).lookup key = some processingRecord := by
  intro l
  induction l with
  | nil => rintro ⟨k, hk, _⟩; cases hk
  | cons a t ih =>
      rintro ⟨k, hk, hkey⟩
      cases hbeq : key == idOf a with
      | true => simp [List.lookup, hbeq]
      | false =>
          have hmem : k ∈ t := by
            cases List.mem_cons.mp hk with
            | inl h =>
                exfalso
                have : key = idOf a := by rw [hkey, h]
                simp [this] at hbeq
            | inr h => exact h
          simp only [List.map_cons, List.lookup, hbeq]
          exact ih ⟨k, hmem, hkey⟩

theorem runEvents_seqTrace (n : Nat) :
    runEvents initialServerState (seqTrace n) =
      ⟨(List.range n).map (fun k => (idOf k, processingRecord)),
        (List.range n).map idOf⟩ := by
  induction n with
  | zero => rfl
  | succ n ih =>
      have hfresh : ((List.range n).map (fun k => (idOf k, processingRecord))).lookup
          (idOf n) = none := by
        apply lookup_map_idOf_none
        intro k hk heq
        have hkn := idOf_injective heq
        simp only [List.mem_range] at hk
        omega
      have hallocid :
          allocBatchId ((List.range n).map (fun k => (idOf k, processingRecord))) = idOf n := by
        simp [allocBatchId, idOf]
      have hget : ((List.range n).map idOf ++ [idOf n]).get? n = some (idOf n) := by
        have hl : ((List.range n).map idOf).length = n := by simp
        have hc := List.getElem?_concat_length ((List.range n).map idOf) (idOf n)
        rw [hl] at hc
        rw [List.get?_eq_getElem?, hc]
      have hsplit : runEvents initialServerState
            (seqTrace n ++ [BatchEvent.submit, BatchEvent.startBackground n])
          = runEvents (runEvents initialServerState (seqTrace n))
              [BatchEvent.submit, BatchEvent.startBackground n] := by
        simp [runEvents, List.foldl_append]
      rw [seqTrace, hsplit, ih]
      simp only [runEvents, List.foldl_cons, List.foldl_nil, stepEvent, hallocid, hget]
      rw [dictSet_fresh _ _ _ hfresh]
      rw [List.range_succ]
      simp

/-- C1 (confirmed): for every batch of `n` task specifications run through
`process_batch_and_save`, the record stored under the batch id once its
status is `completed` has exactly `n` items whose `index` values are exactly
`0..n-1`, with no duplicates or gaps, listed in ascending submission order.
The aggregation loop awaits the sub-tasks strictly in submission order and
appends `{"index": i, ...}` for `i = 0, 1, ...`, so the assembled list is a
function of the per-task outcomes alone, independent of the order in which
the sub-tasks actually finish. -/
theorem batch_record_items_complete (outcomes : List (Except String SingleResult))
    (batch_id : String) (store : List (String × BatchRecord)) :
    ∃ record : BatchRecord,
      (process_batch_and_save batch_id outcomes store).lookup batch_id = some record ∧
      record.status = "completed" ∧
      record.results.length = outcomes.length ∧
      record.results.map BatchItem.index = List.range outcomes.length := by
  refine ⟨completedRecord outcomes, dictSet_lookup_self _ _ _, rfl, ?_, ?_⟩
  · simp [completedRecord, assembleResults]
  · show List.map BatchItem.index (List.map (fun p => ⟨p.1, p.2⟩) outcomes.enum) = _
    rw [List.map_map]
    exact List.enum_map_fst outcomes

/-- C10 (confirmed): `invoke_api` is total over transport outcomes — an
exception raised by the HTTP request is caught and converted into the JSON
text `{"code": -1, "message": ...}`, so every call returns a response text,
and a transport failure reaches the poller as a successfully parsed JSON
body with no `data.taskStatus` field (the status chain yields `None`),
landing in the non-terminal pending branch rather than raising. -/
theorem invoke_api_total_transport_failure (msg : String) :
    invoke_api (TransportOutcome.exc msg)
      = Body.jsonBody (Json.obj [("code", Json.num (-1)),
          ("message", Json.str ("API调用异常: " ++ msg))]) ∧
    taskStatusOf (Json.obj [("code", Json.num (-1)),
        ("message", Json.str ("API调用异常: " ++ msg))]) = Except.ok Json.null ∧
    pollBranch (invoke_api (TransportOutcome.exc msg)) = PollBranch.pending :=
  ⟨rfl, rfl, rfl⟩

/-- C7 (confirmed): every remote call through a client acquires one unit of
the client's semaphore before the HTTP request and releases it afterwards on
both the success and the exception path, and any interleaving of such
acquire/release steps keeps the holder count — which bounds the number of
in-flight remote calls — at or below the semaphore capacity `c`, for any
batch size and any latency distribution. -/
theorem limiter_bounds_in_flight (c : Nat) :
    (∀ t, ∃ b, invoke_api_actions t
      = [ApiAction.acquire, ApiAction.remoteCall b, ApiAction.release]) ∧
    (∀ f, SemReachable c f → f ≤ c) := by
  constructor
  · intro t
    cases t with
    | ok b => exact ⟨true, rfl⟩
    | exc m => exact ⟨false, rfl⟩
  · intro f h
    induction h with
    | init => omega
    | acquire _ hlt ih => omega
    | release _ hpos ih => omega

/-- Witness for `limiter_bounds_in_flight` at capacity 10 with a concrete
three-holder reachable state. -/
theorem limiter_bounds_in_flight_witness : (3 : Nat) ≤ 10 :=
  (limiter_bounds_in_flight 10).2 3
    (SemReachable.acquire (SemReachable.acquire (SemReachable.acquire
      SemReachable.init (by omega)) (by omega)) (by omega))

/-- C8 counterexample: each run of `process_batch_and_save` constructs its
own `AsyncApiClient`, hence its own semaphore, so with two
concurrently-running batches of limiter size 1 each the joint system reaches
a state with one call in flight per batch — 2 in-flight calls in total,
exceeding the single shared bound of 1 the claim asserts. -/
theorem separate_limiters_cex :
    TwoBatchReachable 1 1 1 1 ∧ ¬ (1 + 1 ≤ 1) := by
  constructor
  · exact TwoBatchReachable.acquire₂
      (TwoBatchReachable.acquire₁ TwoBatchReachable.init (by omega)) (by omega)
  · omega

/-- C8 (amended): the limiter is per-client and each batch creates its own
client, so concurrently-running batches do not compete for one shared
limiter; each batch's in-flight calls are bounded by its own
`max_concurrent` and the system-wide count only by the sum of the per-batch
limits. -/
theorem per_batch_limiter_bound {c₁ c₂ f₁ f₂ : Nat}
    (h : TwoBatchReachable c₁ c₂ f₁ f₂) :
    f₁ ≤ c₁ ∧ f₂ ≤ c₂ ∧ f₁ + f₂ ≤ c₁ + c₂ := by
  induction h with
  | init => omega
  | acquire₁ _ hlt ih => omega
  | release₁ _ hpos ih => omega
  | acquire₂ _ hlt ih => omega
  | release₂ _ hpos ih => omega

/-- Witness for `per_batch_limiter_bound` at a concrete reachable state of
two batches with capacities 2 and 3. -/
theorem per_batch_limiter_bound_witness :
    (1 : Nat) ≤ 2 ∧ (1 : Nat) ≤ 3 ∧ 1 + 1 ≤ 2 + 3 :=
  per_batch_limiter_bound (TwoBatchReachable.acquire₂
    (TwoBatchReachable.acquire₁ TwoBatchReachable.init (by omega)) (by omega))

/-- C6 counterexample: the failure dict produced when submission yields no
task id carries the message `提交任务失败` (Chinese for "submit task
failed"), not the literal reason string `submission failed` the claim
states. -/
theorem submission_failure_reason_cex :
    (process_single_request (TransportOutcome.ok (Body.rawBody ""))
        (fun _ => TransportOutcome.ok (Body.rawBody ""))).1
      ≠ SingleResult.failed "submission failed" := by
  have hval : (process_single_request (TransportOutcome.ok (Body.rawBody ""))
      (fun _ => TransportOutcome.ok (Body.rawBody ""))).1
      = SingleResult.failed "提交任务失败" := rfl
  rw [hval]
  simp

/-- C6 (amended): a task whose submission yields no truthy task id resolves
to the failure outcome `{"status": "failed", "message": "提交任务失败"}` with
zero poll calls issued; `process_single_request` is a total function of its
transport oracles, so the task terminates rather than blocking
indefinitely. -/
theorem submission_failure_no_polling (s : TransportOutcome)
    (pr : Nat → TransportOutcome) (h : (submit_task s).isTruthy = false) :
    process_single_request s pr = (SingleResult.failed "提交任务失败", 0) := by
  simp [process_single_request, h]

/-- Witness for `submission_failure_no_polling`: an empty response body, on
which `json.loads` raises, yields no task id. -/
theorem submission_failure_no_polling_witness :
    process_single_request (TransportOutcome.ok (Body.rawBody ""))
        (fun _ => TransportOutcome.ok (Body.rawBody ""))
      = (SingleResult.failed "提交任务失败", 0) :=
  submission_failure_no_polling _ _ rfl

/-- C4 counterexample: with response `{"data": {"taskId": ""}}` the field
`data.taskId` is present yet the extracted id is the falsy empty string, so
the call yields no usable task id even though a field is present; and with
`{"data": {"result": 5, "taskId": "T1"}}` the primary lookup raises inside
the `try` (an intermediate value is not an object), so `None` is returned
without ever consulting the present `data.taskId` field — both contradict
"error exactly when neither field is present" and "falling back if
absent". -/
theorem submit_task_id_absent_vs_falsy_cex :
    (extract_task_id (Body.jsonBody (Json.obj [("data",
        Json.obj [("taskId", Json.str "")])]))).isTruthy = false ∧
    extract_task_id (Body.jsonBody (Json.obj [("data",
        Json.obj [("result", Json.num 5), ("taskId", Json.str "T1")])])) = Json.null :=
  ⟨rfl, rfl⟩

/-- C4 (amended): the submit request body wraps the JSON-encoded parameters
under `paramJson` exactly for endpoint names starting with
`/ai/image/translation` and under `requestParams` otherwise; the task id is
read from `data.result.taskId`, falling back to `data.taskId` when the
primary value is absent or falsy; and a truthy task id comes back exactly
when the response parses as JSON and the primary chain yields a truthy
value, or the primary chain yields a falsy value and the fallback chain a
truthy one — in particular transport failures (whose synthesized body has
neither field), non-JSON bodies, and lookup chains that raise all yield no
task id. -/
theorem submit_request_and_task_id (api_name : String) (params : Json) (j : Json) :
    (strStartsWith api_name "/ai/image/translation" = true →
      submit_request_body api_name params
        = Json.obj [("paramJson", Json.str (jsonRender params))]) ∧
    (strStartsWith api_name "/ai/image/translation" = false →
      submit_request_body api_name params
        = Json.obj [("requestParams", Json.str (jsonRender params))]) ∧
    (∀ v, primaryTaskId j = Except.ok v → v.isTruthy = true →
      extract_task_id (Body.jsonBody j) = v) ∧
    (∀ v w, primaryTaskId j = Except.ok v → v.isTruthy = false →
      fallbackTaskId j = Except.ok w → extract_task_id (Body.jsonBody j) = w) ∧
    (∀ t : TransportOutcome,
      (extract_task_id (invoke_api t)).isTruthy = true ↔
        ∃ jb, invoke_api t = Body.jsonBody jb ∧
          ((∃ v, primaryTaskId jb = Except.ok v ∧ v.isTruthy = true) ∨
           (∃ v w, primaryTaskId jb = Except.ok v ∧ v.isTruthy = false ∧
             fallbackTaskId jb = Except.ok w ∧ w.isTruthy = true))) := by
  refine ⟨fun h => by simp [submit_request_body, h],
    fun h => by simp [submit_request_body, h],
    fun v hv htr => by simp [extract_task_id, hv, htr],
    fun v w hv hvf hw => by simp [extract_task_id, hv, hvf, hw],
    fun t => ?_⟩
  constructor
  · intro h
    cases hb : invoke_api t with
    | rawBody s => rw [hb] at h; simp [extract_task_id, Json.isTruthy] at h
    | jsonBody jb =>
        rw [hb] at h
        refine ⟨jb, rfl, ?_⟩
        cases hp : primaryTaskId jb with
        | error e => simp [extract_task_id, hp, Json.isTruthy] at h
        | ok v =>
            cases hv : v.isTruthy with
            | true => exact Or.inl ⟨v, rfl, hv⟩
            | false =>
                cases hf : fallbackTaskId jb with
                | error e =>
                    have hred : extract_task_id (Body.jsonBody jb) = Json.null := by
                      simp [extract_task_id, hp, hv, hf]
                    rw [hred] at h
                    exact Bool.noConfusion h
                | ok w =>
                    have hw : w.isTruthy = true := by
                      simpa [extract_task_id, hp, hv, hf] using h
                    exact Or.inr ⟨v, w, rfl, hv, rfl, hw⟩
  · rintro ⟨jb, hjb, hcase⟩
    rw [hjb]
    rcases hcase with ⟨v, hp, hv⟩ | ⟨v, w, hp, hvf, hf, hw⟩
    · simp [extract_task_id, hp, hv]
    · simp [extract_task_id, hp, hvf, hf, hw]

/-- Witness for `submit_request_and_task_id`: primary-chain extraction and
falsy-primary fallback on concrete responses. -/
theorem submit_request_and_task_id_witness :
    extract_task_id (Body.jsonBody (Json.obj [("data",
        Json.obj [("result", Json.obj [("taskId", Json.str "T1")])])])) = Json.str "T1" ∧
    extract_task_id (Body.jsonBody (Json.obj [("data",
        Json.obj [("taskId", Json.str "T2")])])) = Json.str "T2" := by
  constructor
  · exact (submit_request_and_task_id "/x" Json.null (Json.obj [("data",
      Json.obj [("result", Json.obj [("taskId", Json.str "T1")])])])).2.2.1
      (Json.str "T1") rfl rfl
  · exact (submit_request_and_task_id "/x" Json.null (Json.obj [("data",
      Json.obj [("taskId", Json.str "T2")])])).2.2.2.1
      Json.null (Json.str "T2") rfl rfl rfl

/-- C2 counterexample: when the retry budget is exhausted the poller returns
the body `{"code": -1, "message": "任务轮询超时"}`; the message is the
Chinese string of the source, not the literal `polling timed out` the claim
quotes. -/
theorem poll_timeout_message_cex :
    (poll_task_status (fun _ => TransportOutcome.ok (Body.jsonBody (Json.obj [])))
        1 1 10).result = timeoutBody ∧
    timeoutBody ≠ Body.jsonBody (Json.obj [("code", Json.num (-1)),
      ("message", Json.str "polling timed out")]) := by
  constructor
  · rfl
  · simp [timeoutBody]

/-- C2 (amended): if the `i`-th status query (counting from 0) is the first
whose response parses with `data.taskStatus` equal to `finished` or
`failed`, and `i` is within the retry budget, the poller returns that raw
response body on that iteration, after exactly `i + 1` queries; any
non-terminal response — including query errors — keeps polling; and after
`max_retries` iterations (the source default is 60) without a terminal
status the poller returns the synthetic timeout body
`{"code": -1, "message": "任务轮询超时"}` instead of raising. -/
theorem poll_terminal_immediate_or_timeout
    (r₁ r₂ : Nat → TransportOutcome) (max_retries i : Nat) (d M : ℚ)
    (hi : i < max_retries)
    (hterm : pollBranch (invoke_api (r₁ i)) = PollBranch.terminal)
    (hbefore : ∀ j, j < i → pollBranch (invoke_api (r₁ j)) ≠ PollBranch.terminal)
    (hnone : ∀ j, j < max_retries → pollBranch (invoke_api (r₂ j)) ≠ PollBranch.terminal) :
    (poll_task_status r₁ max_retries d M).result = invoke_api (r₁ i) ∧
    (poll_task_status r₁ max_retries d M).queries = i + 1 ∧
    (poll_task_status r₂ max_retries d M).result = timeoutBody ∧
    timeoutBody = Body.jsonBody (Json.obj [("code", Json.num (-1)),
      ("message", Json.str "任务轮询超时")]) := by
  have h1 := poll_loop_terminal r₁ M i max_retries 0 d hi
    (by intro j hj; simpa using hbefore j hj) (by simpa using hterm)
  have h2 := poll_loop_timeout r₂ M max_retries 0 d
    (by intro j hj; simpa using hnone j hj)
  refine ⟨?_, ?_, ?_, rfl⟩
  · simpa [poll_task_status] using h1.1
  · simpa [poll_task_status] using h1.2
  · simpa [poll_task_status] using h2.1

/-- Witness for `poll_terminal_immediate_or_timeout`: a first response that
is already terminal is returned as-is, and a stream of unparseable responses
times out. -/
theorem poll_terminal_immediate_or_timeout_witness :
    (poll_task_status (fun _ => TransportOutcome.ok (Body.jsonBody
        (Json.obj [("data", Json.obj [("taskStatus", Json.str "finished")])]))) 60 1 10).result
      = Body.jsonBody (Json.obj [("data", Json.obj [("taskStatus", Json.str "finished")])]) ∧
    (poll_task_status (fun _ => TransportOutcome.ok (Body.rawBody "oops")) 60 1 10).result
      = timeoutBody := by
  have hraw : pollBranch (invoke_api (TransportOutcome.ok (Body.rawBody "oops")))
      ≠ PollBranch.terminal := by decide
  have h := poll_terminal_immediate_or_timeout
    (fun _ => TransportOutcome.ok (Body.jsonBody
      (Json.obj [("data", Json.obj [("taskStatus", Json.str "finished")])])))
    (fun _ => TransportOutcome.ok (Body.rawBody "oops")) 60 0 1 10
    (by omega) (by decide)
    (fun j hj => absurd hj (Nat.not_lt_zero j))
    (fun j hj => hraw)
  exact ⟨h.1, h.2.2.1⟩

/-- C3 counterexample: a transport failure is caught inside `invoke_api` and
converted into a parseable JSON body, so a failed poll lands in the
non-terminal *success* branch: two consecutive transport-failed polls sleep
1s then 1.5s, where the claim's formula `min(initialDelay * 2^k, maxDelay)`
demands 1s then 2s. -/
theorem poll_transport_failure_backoff_cex :
    (poll_task_status (fun _ => TransportOutcome.exc "boom") 2 1 10).sleeps = [1, 3 / 2] ∧
    ((3 : ℚ) / 2) ≠ 2 := by
  constructor
  · have hbr : pollBranch (invoke_api (TransportOutcome.exc "boom")) = PollBranch.pending := rfl
    simp only [poll_task_status, poll_loop, hbr]
    norm_num
  · norm_num

/-- C3 (amended): after `k` consecutive polls whose responses parse but are
non-terminal, the `j`-th backoff sleep equals
`min(initialDelay * 1.5^j, maxDelay)`; after `k` consecutive polls whose
responses fail to parse (the `except` arm of the loop), the `j`-th sleep
equals `min(initialDelay * 2^j, maxDelay)`.  Transport failures do *not*
back off at the faster rate: `invoke_api` converts them into parseable
bodies, so they take the 1.5 multiplier; only parse failures take the 2
multiplier. -/
theorem poll_backoff_multipliers
    (r₁ r₂ : Nat → TransportOutcome) (k max_retries : Nat) (d M : ℚ)
    (hd0 : 0 ≤ d) (hd : d ≤ M) (hk : k ≤ max_retries)
    (hpend : ∀ j, j < k → pollBranch (invoke_api (r₁ j)) = PollBranch.pending)
    (hfail : ∀ j, j < k → pollBranch (invoke_api (r₂ j)) = PollBranch.parseError) :
    (poll_task_status r₁ max_retries d M).sleeps.take k
      = (List.range k).map (fun j => min (d * (3 / 2) ^ j) M) ∧
    (poll_task_status r₂ max_retries d M).sleeps.take k
      = (List.range k).map (fun j => min (d * 2 ^ j) M) ∧
    (∀ msg, pollBranch (invoke_api (TransportOutcome.exc msg)) = PollBranch.pending) := by
  refine ⟨?_, ?_, fun msg => rfl⟩
  · have h := poll_loop_sleeps r₁ M PollBranch.pending (by decide) k max_retries 0 d
      hd0 hd hk (by intro j hj; simpa using hpend j hj)
    simpa [poll_task_status, stepFactor] using h
  · have h := poll_loop_sleeps r₂ M PollBranch.parseError (by decide) k max_retries 0 d
      hd0 hd hk (by intro j hj; simpa using hfail j hj)
    simpa [poll_task_status, stepFactor] using h

/-- Witness for `poll_backoff_multipliers`: two pending polls sleep 1s then
1.5s, two parse-failed polls sleep 1s then 2s. -/
theorem poll_backoff_multipliers_witness :
    (poll_task_status (fun _ => TransportOutcome.ok (Body.jsonBody (Json.obj [])))
        60 1 10).sleeps.take 2 = [1, 3 / 2] ∧
    (poll_task_status (fun _ => TransportOutcome.ok (Body.rawBody "x"))
        60 1 10).sleeps.take 2 = [1, 2] := by
  have h := poll_backoff_multipliers
    (fun _ => TransportOutcome.ok (Body.jsonBody (Json.obj [])))
    (fun _ => TransportOutcome.ok (Body.rawBody "x")) 2 60 1 10
    (by norm_num) (by norm_num) (by omega)
    (fun j hj => rfl) (fun j hj => rfl)
  constructor
  · rw [h.1]
    norm_num [List.range_succ]
  · rw [h.2.1]
    norm_num [List.range_succ]

/-- C5 counterexample: the endpoint name `/ai/text/results/get` contains
`/results` without ending in it, yet the code issues a GET — the verb is
chosen by substring containment, not by suffix; and for the non-virtual POST
endpoint `/ai/img/query` the `{"taskId": ...}` payload travels in the
request body (`data=`), not as URL query parameters as the claim states. -/
theorem query_call_shape_cex :
    strEndsWith "/ai/text/results/get" "/results" = false ∧
    (build_query_call "/ai/text/results/get" "T").method = HttpMethod.get ∧
    strContains "/ai/img/query" "/ai/virtual/" = false ∧
    (build_query_call "/ai/img/query" "T").method = HttpMethod.post ∧
    (build_query_call "/ai/img/query" "T").sentAsQueryParams = false := by
  refine ⟨by decide, by decide, by decide, by decide, by decide⟩

/-- C5 (amended): a status query is a GET exactly when the endpoint name
*contains* `/results`; the payload is the JSON string `{"task_id": taskId}`
when the name contains `/ai/virtual/` and the dict `{"taskId": taskId}`
otherwise; and the payload travels as URL query parameters exactly when the
call is a GET — a POST carries it in the request body. -/
theorem query_call_method_and_payload (name tid : String) :
    ((build_query_call name tid).method = HttpMethod.get ↔
      strContains name "/results" = true) ∧
    ((build_query_call name tid).sentAsQueryParams = true ↔
      (build_query_call name tid).method = HttpMethod.get) ∧
    (strContains name "/ai/virtual/" = true →
      (build_query_call name tid).payload
        = QueryPayload.jsonString (jsonRender (Json.obj [("task_id", Json.str tid)]))) ∧
    (strContains name "/ai/virtual/" = false →
      (build_query_call name tid).payload = QueryPayload.dict [("taskId", tid)]) := by
  cases hg : strContains name "/results" <;> cases hv : strContains name "/ai/virtual/" <;>
    simp [build_query_call, hg, hv]

/-- Witness for `query_call_method_and_payload`: a virtual results endpoint
gets the JSON-string payload and a GET. -/
theorem query_call_method_and_payload_witness :
    (build_query_call "/ai/virtual/tryon/results" "T").payload
      = QueryPayload.jsonString (jsonRender (Json.obj [("task_id", Json.str "T")])) ∧
    (build_query_call "/ai/virtual/tryon/results" "T").method = HttpMethod.get := by
  constructor
  · exact (query_call_method_and_payload "/ai/virtual/tryon/results" "T").2.2.1 (by decide)
  · exact ((query_call_method_and_payload "/ai/virtual/tryon/results" "T").1).mpr (by decide)

/-- C9 counterexample: the batch id is `f"batch_{len(task_results) + 1}"`,
but the store only grows when a background task starts.  Two submissions
arriving before either background task runs therefore both read an empty
store and receive the identical id `batch_1`; moreover a read of `batch_1`
right after the first submission finds no record, because the `processing`
record is registered by the background task, not at submission time. -/
theorem batch_id_duplicate_cex :
    (runEvents initialServerState [BatchEvent.submit, BatchEvent.submit]).allocated
      = ["batch_1", "batch_1"] ∧
    (runEvents initialServerState [BatchEvent.submit]).store.lookup "batch_1" = none := by
  exact ⟨rfl, rfl⟩

/-- C9 (amended): batch identifiers are allocated as
`batch_{len(task_results) + 1}`; provided each batch's background task
starts (registering its `processing` record with an empty item sequence)
before the next batch is submitted, the `n` identifiers handed out are
pairwise distinct, and once a batch's background task has started a read of
its identifier finds the `processing` record.  Without that sequencing the
identifiers can collide (see the counterexample). -/
theorem batch_ids_unique_sequential (n : Nat) :
    (runEvents initialServerState (seqTrace n)).allocated.length = n ∧
    (runEvents initialServerState (seqTrace n)).allocated.Nodup ∧
    (∀ bid, bid ∈ (runEvents initialServerState (seqTrace n)).allocated →
      (runEvents initialServerState (seqTrace n)).store.lookup bid
        = some processingRecord) := by
  rw [runEvents_seqTrace]
  refine ⟨by simp, ?_, ?_⟩
  · exact (List.nodup_range n).map (fun a b h => idOf_injective h)
  · intro bid hmem
    obtain ⟨k, hk, rfl⟩ := List.mem_map.mp hmem
    exact lookup_map_idOf_mem _ _ ⟨k, hk, rfl⟩

/-- Witness for `batch_ids_unique_sequential`: under the sequential
discipline with two batches, `batch_1` is registered as processing. -/
theorem batch_ids_unique_sequential_witness :
    (runEvents initialServerState (seqTrace 2)).store.lookup "batch_1"
      = some processingRecord :=
  (batch_ids_unique_sequential 2).2.2 "batch_1" (by decide)
